import Mathlib

/-!
Verification of the quota-controlled recommendation retrieval pipeline of
exploreBlueV2 against its natural-language specification.

The Python services are shallowly embedded as pure Lean functions:

* `MemoryCacheService` (backend/app/services/memory_cache_service.py) becomes a
  `CacheState` record holding the `cache` and `expiry` dictionaries as functions
  `String → Option _` (a Python dict is a finite partial map; iteration order is
  irrelevant to every claim considered here).  Wall-clock time
  (`datetime.utcnow()`) is passed explicitly as a natural number of seconds.
* `QuotaService` (quota_service.py) becomes functions over `CacheState Int`.
* `VectorService` (vector_service.py): float vectors are modelled as `List Rat`;
  `np.sqrt` inside `np.linalg.norm` is kept abstract as a function parameter
  (square roots of rationals are irrational in general); Python exceptions are
  modelled with `Except String`.
* `RecommendationService.get_recommendations` (recommendation_service.py)
  becomes a function parametrised by its injected collaborators, mirroring the
  constructor injection of the Python class; the usage ledger is the list of
  `record_request` invocations the call performs.
-/

namespace ExploreBlue

/-! ## Cache abstraction: MemoryCacheService -/

/-- Pointwise update of a partial map, modelling `d[k] = v` / `d.pop(k)`. -/
def fupd {V : Type} (f : String → Option V) (k : String) (v : Option V) :
    String → Option V :=
  fun k2 => if k2 = k then v else f k2

/-- State of `MemoryCacheService`: the `self.cache` and `self.expiry` dicts plus
the instance's `default_expire` (seconds, from `settings.cache_ttl_seconds`). -/
structure CacheState (V : Type) where
  cache : String → Option V
  expiry : String → Option Nat
  defaultTTL : Nat

/-- An empty cache with the given default TTL. -/
def emptyCache (V : Type) (dflt : Nat) : CacheState V :=
  ⟨fun _ => none, fun _ => none, dflt⟩

namespace MemoryCache

variable {V : Type}

/-- `_cleanup_expired`: drop every key whose expiry instant is strictly before
`now` (the Python comparison is `expiry_time < now`) from both dicts. -/
def cleanupExpired (now : Nat) (s : CacheState V) : CacheState V :=
  { s with
    cache := fun k =>
      match s.expiry k with
      | some e => if e < now then none else s.cache k
      | none => s.cache k
    expiry := fun k =>
      match s.expiry k with
      | some e => if e < now then none else some e
      | none => none }

/-- `get`: cleanup, then `self.cache.get(key)`. -/
def get (now : Nat) (k : String) (s : CacheState V) : Option V × CacheState V :=
  let s1 := cleanupExpired now s
  (s1.cache k, s1)

/-- `set`: store the value; `expire_time = expire or self.default_expire`
(a zero `timedelta` is falsy in Python, hence falls back to the default), and
the expiry dict is only written when `expire_time` is itself truthy. -/
def set (now : Nat) (k : String) (v : V) (expire : Option Nat) (s : CacheState V) :
    CacheState V :=
  let et : Nat :=
    match expire with
    | some e => if e = 0 then s.defaultTTL else e
    | none => s.defaultTTL
  if et = 0 then { s with cache := fupd s.cache k (some v) }
  else
    { s with
      cache := fupd s.cache k (some v)
      expiry := fupd s.expiry k (some (now + et)) }

/-- `delete`: report whether the key was present, remove it from both dicts. -/
def delete (k : String) (s : CacheState V) : Bool × CacheState V :=
  ((s.cache k).isSome,
   { s with cache := fupd s.cache k none, expiry := fupd s.expiry k none })

/-- `exists`: cleanup, then `key in self.cache`. -/
def existsKey (now : Nat) (k : String) (s : CacheState V) : Bool × CacheState V :=
  let s1 := cleanupExpired now s
  ((s1.cache k).isSome, s1)

/-- `increment`: cleanup, read the counter with default `0`, add `amount`,
store the new value.  Note the code sets no expiry here. -/
def increment (now : Nat) (k : String) (amount : Int) (s : CacheState Int) :
    Int × CacheState Int :=
  let s1 := cleanupExpired now s
  let current := (s1.cache k).getD 0
  let newValue := current + amount
  (newValue, { s1 with cache := fupd s1.cache k (some newValue) })

/-- `get_many`: cleanup, then return the sub-dict of the present keys, iterated
in the order of the argument list (as the Python dict comprehension does). -/
def getMany (now : Nat) (ks : List String) (s : CacheState V) :
    List (String × V) × CacheState V :=
  let s1 := cleanupExpired now s
  (ks.filterMap fun k => (s1.cache k).map fun v => (k, v), s1)

end MemoryCache

/-! ## Quota and rate-limit controller: QuotaService -/

/-- `UserRole` enumeration (models/user.py). -/
inductive UserRole where
  | student
  | graduate_student
  | faculty
  | staff
  | admin
  | guest
deriving DecidableEq

/-- The `.value` string of each role. -/
def UserRole.value : UserRole → String
  | .student => "student"
  | .graduate_student => "graduate_student"
  | .faculty => "faculty"
  | .staff => "staff"
  | .admin => "admin"
  | .guest => "guest"

/-- The fields of `User` relevant to quota decisions. -/
structure User where
  id : String
  role : UserRole
  department : Option String

/-- Settings attributes read via `getattr(self.settings, _, default)`:
`none` models an absent attribute (the shipped `BaseSettings` defines
neither `role_quotas` nor `department_quotas`). -/
structure QuotaSettings where
  role_quotas : Option (List (String × Int))
  department_quotas : Option (List (String × Int))

/-- The shipped configuration: neither attribute exists. -/
def defaultQuotaSettings : QuotaSettings := ⟨none, none⟩

/-- First-match lookup in an association list (Python `dict.get`). -/
def alistFind {V : Type} (k : String) : List (String × V) → Option V
  | [] => none
  | (k2, v) :: rest => if k = k2 then some v else alistFind k rest

/-- Fallback role-quota table from `_get_quota_for_user`. -/
def defaultRoleQuotas : List (String × Int) :=
  [("guest", 10), ("student", 50), ("graduate_student", 75),
   ("faculty", 200), ("staff", 100), ("admin", 1000)]

/-- `QuotaService._get_quota_for_user`.  The function builds the override cache
key but never reads it (`# For now, assume no override`), so the resolution is:
department-specific limit if the (truthy) department is configured, else the
role-based default. -/
def getQuotaForUser (st : QuotaSettings) (u : User) : Int :=
  let roleQuotas := st.role_quotas.getD defaultRoleQuotas
  let baseQuota := (alistFind u.role.value roleQuotas).getD 50
  let departmentQuotas := st.department_quotas.getD []
  match u.department with
  | some d =>
      if d = "" then baseQuota
      else
        match alistFind d departmentQuotas with
        | some q => q
        | none => baseQuota
  | none => baseQuota

/-- `QuotaService._get_rate_limit_for_user`: requests/minute by role. -/
def getRateLimitForUser (u : User) : Int :=
  match u.role with
  | .guest => 5
  | .student => 20
  | .graduate_student => 30
  | .faculty => 50
  | .staff => 40
  | .admin => 100

/-- Cache key `rate_limit:{user.id}:{now.strftime('%Y%m%d%H%M')}` — the
timestamp truncated to the minute is modelled by the minute number. -/
def rateKey (uid : String) (now : Nat) : String :=
  "rate_limit:" ++ uid ++ ":" ++ toString (now / 60)

/-- Cache key `daily_usage:{user.id}:{today.isoformat()}` — the UTC calendar
day is modelled by the day number `now / 86400`. -/
def dailyKey (uid : String) (day : Nat) : String :=
  "daily_usage:" ++ uid ++ ":" ++ toString day

/-- Cache key `quota_override:{user_id}`. -/
def overrideKey (uid : String) : String := "quota_override:" ++ uid

/-- The decision dict returned by `check_rate_limit`. -/
structure RateDecision where
  allowed : Bool
  current_count : Int
  limit : Int
  reset_time : Nat
  retry_after : Option Nat
deriving DecidableEq

/-- `QuotaService.check_rate_limit`: read the current minute-bucket counter
(`or 0`), reject with a constant `retry_after` of 60 when it has reached the
role's limit, otherwise increment and re-set the counter with a one-minute
expiry. -/
def checkRateLimit (u : User) (now : Nat) (s : CacheState Int) :
    RateDecision × CacheState Int :=
  let k := rateKey u.id now
  let (cur, s1) := MemoryCache.get now k s
  let currentCount := cur.getD 0
  let rateLimit := getRateLimitForUser u
  if rateLimit ≤ currentCount then
    ({ allowed := false, current_count := currentCount, limit := rateLimit,
       reset_time := now + 60, retry_after := some 60 }, s1)
  else
    let (_, s2) := MemoryCache.increment now k 1 s1
    let s3 := MemoryCache.set now k (currentCount + 1) (some 60) s2
    ({ allowed := true, current_count := currentCount + 1, limit := rateLimit,
       reset_time := now + 60, retry_after := none }, s3)

/-- The decision dict returned by `check_quota`. -/
structure QuotaDecision where
  allowed : Bool
  current_usage : Int
  limit : Int
  reset_day : Nat
deriving DecidableEq

/-- `QuotaService.check_quota`: read today's usage counter (`or 0`) and compare
with `_get_quota_for_user`; checking does not increment anything. -/
def checkQuota (st : QuotaSettings) (u : User) (now : Nat) (s : CacheState Int) :
    QuotaDecision × CacheState Int :=
  let day := now / 86400
  let (cur, s1) := MemoryCache.get now (dailyKey u.id day) s
  let currentUsage := cur.getD 0
  let quotaLimit := getQuotaForUser st u
  if quotaLimit ≤ currentUsage then
    ({ allowed := false, current_usage := currentUsage, limit := quotaLimit,
       reset_day := day + 1 }, s1)
  else
    ({ allowed := true, current_usage := currentUsage, limit := quotaLimit,
       reset_day := day + 1 }, s1)

/-- `QuotaService.record_request`: increment today's usage counter, then
re-read it (`or 1`) and re-set it with expiry at the end of tomorrow. -/
def quotaRecordRequest (u : User) (now : Nat) (s : CacheState Int) :
    Bool × CacheState Int :=
  let day := now / 86400
  let k := dailyKey u.id day
  let (_, s1) := MemoryCache.increment now k 1 s
  let expireDelta := (day + 2) * 86400 - now
  let (cur, s2) := MemoryCache.get now k s1
  let currentCount := match cur with
    | some v => if v = 0 then 1 else v
    | none => 1
  (true, MemoryCache.set now k currentCount (some expireDelta) s2)

/-- `QuotaService.update_user_quota` (`set_quota_override`): store the override
under `quota_override:{user_id}` with a 30-day expiry. -/
def updateUserQuota (uid : String) (newQuota : Int) (now : Nat)
    (s : CacheState Int) : Bool × CacheState Int :=
  (true, MemoryCache.set now (overrideKey uid) newQuota (some 2592000) s)

/-- `QuotaService.reset_user_quota`: delete today's usage counter. -/
def resetUserQuota (uid : String) (now : Nat) (s : CacheState Int) :
    Bool × CacheState Int :=
  MemoryCache.delete (dailyKey uid (now / 86400)) s

/-! ## Similarity retrieval engine: VectorService

Course embeddings and query vectors are `List Rat`.  A row of the loaded
pandas DataFrame is a `CourseRow`; the columns the search loop reads with
`course_data["…"]` are `Option`-valued so that a missing column (a `KeyError`
at lookup time, caught by the outer `except`) is representable. -/

/-- One row of `self._courses_data`. -/
structure CourseRow where
  id : Option String
  course : Option String
  title : Option String
  description : Option String
  level : Option Int
  department : Option String
  is_active : Bool
  embedding : List Rat
deriving DecidableEq

/-- The loaded DataFrame: its rows in load order, and whether the
`is_active` column exists (`"is_active" in filtered_df.columns`). -/
structure Corpus where
  rows : List CourseRow
  hasIsActive : Bool
deriving DecidableEq

/-- `models/course.py` `Course` (the fields the search constructs). -/
structure Course where
  id : String
  course_code : String
  title : String
  description : String
  level : Int
  department : String
deriving DecidableEq

/-- `models/course.py` `SimilarCourse`. -/
structure SimilarCourse where
  course : Course
  similarity_score : Rat
  relevance_explanation : Option String
deriving DecidableEq

/-- `models/course.py` `CourseFilter` (the fields `_apply_filters` reads). -/
structure CourseFilter where
  levels : Option (List Int)
  departments : Option (List String)
  include_inactive : Bool
deriving DecidableEq

/-- Constructing a `Course` from a row: each required column access raises
`KeyError` when absent; `department` uses `.get("department", "Unknown")`. -/
def mkCourse (r : CourseRow) : Except String Course :=
  match r.id, r.course, r.title, r.description, r.level with
  | some i, some cc, some t, some d, some l =>
      .ok ⟨i, cc, t, d, l, r.department.getD "Unknown"⟩
  | _, _, _, _, _ => .error "KeyError"

/-- `VectorService._apply_filters`: level membership when `filters.levels` is
truthy (a `None` or empty list applies no filter), then department membership,
then `is_active == True` unless `include_inactive` (and only when the column
exists). -/
def applyFilters (c : Corpus) (filters : Option CourseFilter) : List CourseRow :=
  match filters with
  | none => c.rows
  | some f =>
      let r1 :=
        match f.levels with
        | some ls =>
            if ls = [] then c.rows
            else c.rows.filter fun r =>
              match r.level with
              | some l => decide (l ∈ ls)
              | none => false
        | none => c.rows
      let r2 :=
        match f.departments with
        | some ds =>
            if ds = [] then r1
            else r1.filter fun r =>
              match r.department with
              | some d => decide (d ∈ ds)
              | none => false
        | none => r1
      if f.include_inactive then r2
      else if c.hasIsActive then r2.filter (fun r => r.is_active) else r2

/-- `np.dot` of two equal-length vectors. -/
def dotProduct (a b : List Rat) : Rat :=
  (List.zipWith (fun x y => x * y) a b).sum

/-- Squared Euclidean magnitude, so that "the magnitude is zero" is the
decidable condition `normSq v = 0`. -/
def normSq (a : List Rat) : Rat := dotProduct a a

/-- `VectorService._calculate_similarities` for one candidate embedding.
`np.sqrt` is kept abstract as the parameter `sq` (with `sq 0 = 0` assumed where
needed, as for the real square root); `norms` is the product of the two
magnitudes, and `np.divide(…, out=np.zeros_like(…), where=norms != 0)` leaves
the output at `0` exactly when `norms` is `0`. -/
def calcSim (sq : Rat → Rat) (query emb : List Rat) : Rat :=
  let dot := dotProduct emb query
  let norms := sq (normSq emb) * sq (normSq query)
  if norms = 0 then 0 else dot / norms

/-- The similarity array over the filtered rows. -/
def simsOf (sq : Rat → Rat) (query : List Rat) (rows : List CourseRow) :
    List Rat :=
  rows.map fun r => calcSim sq query r.embedding

/-- The comparison `np.argsort` sorts `(index, value)` pairs by: ascending
value, ties by ascending index.  This is a linear order on the enumerated
pairs, so the sorted permutation is unique; it coincides with NumPy's stable
(and, on concrete float inputs, observed) tie behaviour. -/
def argLe (p q : Nat × Rat) : Prop :=
  p.2 < q.2 ∨ (p.2 = q.2 ∧ p.1 ≤ q.1)

instance : DecidableRel argLe := fun _ _ =>
  inferInstanceAs (Decidable (_ ∨ _))

instance : IsTotal (Nat × Rat) argLe where
  total p q := by
    rcases lt_trichotomy p.2 q.2 with h | h | h
    · exact Or.inl (Or.inl h)
    · rcases Nat.le_total p.1 q.1 with h2 | h2
      · exact Or.inl (Or.inr ⟨h, h2⟩)
      · exact Or.inr (Or.inr ⟨h.symm, h2⟩)
    · exact Or.inr (Or.inl h)

instance : IsTrans (Nat × Rat) argLe where
  trans p q r hpq hqr := by
    rcases hpq with h1 | ⟨e1, i1⟩
    · rcases hqr with h2 | ⟨e2, _⟩
      · exact Or.inl (h1.trans h2)
      · exact Or.inl (e2 ▸ h1)
    · rcases hqr with h2 | ⟨e2, i2⟩
      · exact Or.inl (e1 ▸ h2)
      · exact Or.inr ⟨e1.trans e2, i1.trans i2⟩

/-- `np.argsort(similarities)` (ascending, stable). -/
def argsort (xs : List Rat) : List Nat :=
  (List.insertionSort argLe xs.enum).map Prod.fst

/-- Python slice `a[-limit:]` for a non-negative `limit`: note `a[-0:]` is the
whole list. -/
def sliceLast {α : Type} (limit : Nat) (l : List α) : List α :=
  if limit = 0 then l else l.drop (l.length - limit)

/-- `similarities[idx]` (indices produced by `argsort` are always in range). -/
def simAt (sims : List Rat) (i : Nat) : Rat := sims.getD i 0

/-- `top_indices = np.argsort(similarities)[-limit:][::-1]`. -/
def topIndices (sims : List Rat) (limit : Nat) : List Nat :=
  (sliceLast limit (argsort sims)).reverse

/-- The indices surviving the `if similarities[idx] > 0.5` threshold test,
in loop order. -/
def selectedIndices (sims : List Rat) (limit : Nat) : List Nat :=
  (topIndices sims limit).filter fun i => decide ((1 : Rat) / 2 < simAt sims i)

/-- The body of the result loop: build a `SimilarCourse` for each selected
index; a malformed row raises (`Except.error`), aborting the loop. -/
def buildMatches (rows : List CourseRow) (sims : List Rat) :
    List Nat → Except String (List SimilarCourse)
  | [] => .ok []
  | i :: rest =>
      match rows.get? i with
      | none => .error "IndexError"
      | some row =>
          match mkCourse row with
          | .error e => .error e
          | .ok c =>
              match buildMatches rows sims rest with
              | .error e => .error e
              | .ok tail => .ok (⟨c, simAt sims i, none⟩ :: tail)

/-- The `try` body of `search_similar_courses`, after the corpus is loaded:
empty corpus → `[]`; empty filtered set → `[]`; otherwise rank and build. -/
def searchBody (sq : Rat → Rat) (corpus : Corpus) (query : List Rat)
    (filters : Option CourseFilter) (limit : Nat) :
    Except String (List SimilarCourse) :=
  if corpus.rows.length = 0 then .ok []
  else
    let filtered := applyFilters corpus filters
    if filtered.length = 0 then .ok []
    else
      let sims := simsOf sq query filtered
      buildMatches filtered sims (selectedIndices sims limit)

/-- `VectorService._load_course_data`: the external snapshot read; both a
missing file and a read failure leave an empty DataFrame (its own `except`
block), so loading never leaves the corpus unset and never raises. -/
def loadCourseData (loader : Except String Corpus) : Corpus :=
  match loader with
  | .ok c => c
  | .error _ => ⟨[], false⟩

/-- `VectorService.search_similar_courses`: load the corpus if not yet loaded,
run the body, and catch every exception as an empty result list.  Returns the
result together with the `_courses_data` state after the call. -/
def searchSimilarCourses (sq : Rat → Rat) (loaded : Option Corpus)
    (loader : Except String Corpus) (query : List Rat)
    (filters : Option CourseFilter) (limit : Nat) :
    List SimilarCourse × Corpus :=
  let corpus :=
    match loaded with
    | some c => c
    | none => loadCourseData loader
  match searchBody sq corpus query filters limit with
  | .ok r => (r, corpus)
  | .error _ => ([], corpus)

/-- A row is well formed when every column the result loop reads is present. -/
def RowWF (r : CourseRow) : Prop :=
  r.id.isSome ∧ r.course.isSome ∧ r.title.isSome ∧ r.description.isSome ∧
    r.level.isSome

instance (r : CourseRow) : Decidable (RowWF r) :=
  inferInstanceAs (Decidable (_ ∧ _))

/-- The `SimilarCourse` the loop builds at an in-range well-formed index. -/
def matchAt (rows : List CourseRow) (sims : List Rat) (i : Nat) :
    SimilarCourse :=
  match (rows.get? i).bind fun row => (mkCourse row).toOption with
  | some c => ⟨c, simAt sims i, none⟩
  | none => ⟨⟨"", "", "", "", 0, ""⟩, simAt sims i, none⟩

/-- The similarity values in fully-sorted descending order (the value sequence
`argsort` induces, reversed). -/
def descAllVals (sims : List Rat) : List Rat :=
  ((argsort sims).reverse).map (simAt sims)

/-! ## VectorService.generate_embedding

The cache stores embedding vectors (`CacheState (List Rat)`), keyed by
`embedding:{md5(text)}`; the digest is kept abstract as a hash-function
parameter.  Crucially, `vector_service.py` imports neither `datetime` nor
`timedelta` (its import list is `numpy`, `pandas`, `typing`, `logging`,
`asyncio`, `functools.lru_cache`, `hashlib` and the app modules), so on a
cache miss the statement
`await self.cache_service.set(cache_key, embedding, expire=timedelta(hours=24))`
raises `NameError: name 'timedelta' is not defined` inside the `try` block,
which logs and re-raises.  The embedding is therefore computed and then the
call fails; nothing is ever stored. -/

/-- Result of one `generate_embedding` call: the returned value or the raised
exception, the cache state afterwards, and how many provider calls were made. -/
def generateEmbedding (provider : String → Except String (List Rat))
    (md5hex : String → String) (now : Nat) (s : CacheState (List Rat))
    (text : String) : Except String (List Rat) × CacheState (List Rat) × Nat :=
  let key := "embedding:" ++ md5hex text
  let (cached, s1) := MemoryCache.get now key s
  match cached with
  | some v =>
      -- `if cached_embedding:` — Python truthiness: an empty list is falsy.
      if v = [] then
        match provider text with
        | .error e => (.error e, s1, 1)
        | .ok _ =>
            (.error "NameError: name timedelta is not defined", s1, 1)
      else (.ok v, s1, 0)
  | none =>
      match provider text with
      | .error e => (.error e, s1, 1)
      | .ok _ =>
          (.error "NameError: name timedelta is not defined", s1, 1)

/-! ## Recommendation orchestration pipeline

`RecommendationService.get_recommendations`, parametrised by its injected
collaborators.  External calls are `Except`-valued; the returned usage ledger
is the list of `usage_service.record_request` invocations the call makes. -/

/-- The collaborators injected into `RecommendationService`. -/
structure PipelineDeps where
  genDesc : String → Except String String
  genEmb : String → Except String (List Rat)
  search : List Rat → CourseFilter → Nat → List SimilarCourse
  genRecText : String → List SimilarCourse → Except String String
  explain : Course → String → Except String String

/-- `models/requests.py` `RecommendationRequest` (the fields the pipeline
reads; pydantic validates `1 ≤ max_results ≤ 50`). -/
structure RecRequest where
  query : String
  levels : Option (List Int)
  max_results : Nat
  include_explanations : Bool

/-- `models/requests.py` `RecommendationResponse` (the deterministic fields;
`search_time_ms`, `request_id` and `generated_at` are wall-clock/uuid noise
and are omitted). -/
structure RecResponse where
  recommendations : List SimilarCourse
  query : String
  total_courses_searched : Nat
  search_explanation : Option String
  generated_course_description : Option String
deriving DecidableEq

/-- One `record_request` invocation: the `success` flag and the
`results_returned` metadata entry. -/
structure UsageEntry where
  success : Bool
  results_returned : Nat
deriving DecidableEq

/-- The failure record written from the `except` block. -/
def failEntry : UsageEntry := ⟨false, 0⟩

/-- Usage is recorded only `if user:`. -/
def logFor (user : Option User) (e : UsageEntry) : List UsageEntry :=
  match user with
  | some _ => [e]
  | none => []

/-- Step 6 enrichment of one match: `if not similar_course.relevance_explanation`
(Python truthiness: `None` or the empty string) call `explain_recommendation`
and store the result; an exception propagates. -/
def enrichOne (expl : Course → String → Except String String) (q : String)
    (sc : SimilarCourse) : Except String SimilarCourse :=
  match sc.relevance_explanation with
  | some e =>
      if e = "" then
        (expl sc.course q).map fun ex => { sc with relevance_explanation := some ex }
      else .ok sc
  | none =>
      (expl sc.course q).map fun ex => { sc with relevance_explanation := some ex }

/-- Enrichment loop over a list of matches. -/
def enrichList (expl : Course → String → Except String String) (q : String) :
    List SimilarCourse → Except String (List SimilarCourse)
  | [] => .ok []
  | sc :: rest =>
      match enrichOne expl q sc with
      | .error e => .error e
      | .ok sc2 =>
          match enrichList expl q rest with
          | .error e => .error e
          | .ok tail => .ok (sc2 :: tail)

/-- Step 6: the loop runs over `similar_courses[:max_results]`; mutation is in
place, so the rest of the list is unchanged. -/
def enrich (expl : Course → String → Except String String) (q : String)
    (n : Nat) (cs : List SimilarCourse) : Except String (List SimilarCourse) :=
  match enrichList expl q (cs.take n) with
  | .error e => .error e
  | .ok pre => .ok (pre ++ cs.drop n)

/-- The early-return response of Step 4 when no matches are found (note: no
usage record is written on this path). -/
def emptyRecResponse (q : String) : RecResponse :=
  ⟨[], q, 0, some "No courses found matching your query and level preferences.",
   none⟩

/-- `RecommendationService.get_recommendations`: generate a description, embed
it, search with `limit = min(50, max_results * 3)` and inactive courses
excluded, short-circuit on no matches, generate the recommendation text,
optionally enrich the top `max_results` matches with explanations, record
usage once on success; any exception records a failure entry and re-raises. -/
def getRecommendations (d : PipelineDeps) (req : RecRequest)
    (user : Option User) : Except String RecResponse × List UsageEntry :=
  match d.genDesc req.query with
  | .error e => (.error e, logFor user failEntry)
  | .ok desc =>
      match d.genEmb desc with
      | .error e => (.error e, logFor user failEntry)
      | .ok emb =>
          let cf : CourseFilter := ⟨req.levels, none, false⟩
          let similar := d.search emb cf (min 50 (req.max_results * 3))
          if similar.isEmpty then (.ok (emptyRecResponse req.query), [])
          else
            match d.genRecText req.query (similar.take (req.max_results * 2)) with
            | .error e => (.error e, logFor user failEntry)
            | .ok _ =>
                match
                  (if req.include_explanations then
                    enrich d.explain req.query req.max_results similar
                  else .ok similar) with
                | .error e => (.error e, logFor user failEntry)
                | .ok similar2 =>
                    let recs := similar2.take req.max_results
                    (.ok ⟨recs, req.query, similar2.length,
                          some ("Found " ++ toString similar2.length ++
                            " relevant courses based on your interests."),
                          some desc⟩,
                     logFor user ⟨true, recs.length⟩)

/-- `UsageService.record_request`: the in-memory append happens first and
cannot fail; the subsequent cache read/write may fail, in which case the
`except` block returns `False` — the function never raises either way. -/
def usageRecordRequest (cacheOk : Bool) (records : List UsageEntry)
    (rec : UsageEntry) : Bool × List UsageEntry :=
  (cacheOk, records ++ [rec])

/-- The visible counter of the requester's current minute bucket. -/
def bucketCount (u : User) (now : Nat) (s : CacheState Int) : Int :=
  ((MemoryCache.cleanupExpired now s).cache (rateKey u.id now)).getD 0

/-- The cache state after `n` consecutive `check_rate_limit` calls by the same
user within the same minute bucket. -/
def stateAfterChecks (u : User) (now : Nat) : Nat → CacheState Int → CacheState Int
  | 0, s => s
  | n + 1, s => (checkRateLimit u now (stateAfterChecks u now n s)).2

/-- A match used by concrete pipeline scenarios. -/
def cexMatch : SimilarCourse := ⟨⟨"c1", "CS1", "T", "D", 100, "CS"⟩, 1, none⟩

/-- Collaborators for the C2 counterexample: every stage succeeds and the
search finds one match, but the explanation generator raises. -/
def c2Deps : PipelineDeps :=
  { genDesc := fun _ => .ok "desc"
    genEmb := fun _ => .ok [1]
    search := fun _ _ _ => [cexMatch]
    genRecText := fun _ _ => .ok "text"
    explain := fun _ _ => .error "boom" }

/-- The request used by concrete pipeline scenarios. -/
def c2Req : RecRequest := ⟨"q", none, 3, true⟩

/-- The requester used by concrete pipeline scenarios. -/
def cexUser : User := ⟨"u2", .student, none⟩

/-- Collaborators for the C6 counterexample: everything succeeds but the
search finds nothing. -/
def c6Deps : PipelineDeps :=
  { genDesc := fun _ => .ok "d"
    genEmb := fun _ => .ok [1]
    search := fun _ _ _ => []
    genRecText := fun _ _ => .ok "t"
    explain := fun _ _ => .ok "e" }

/-- The strict ascending rank order `argsort` establishes on indices:
smaller similarity first, ties by smaller original index first. -/
def ascRank (sims : List Rat) (i j : Nat) : Prop :=
  simAt sims i < simAt sims j ∨ (simAt sims i = simAt sims j ∧ i < j)

/-- The ranked result list the search loop produces: the matches at the
selected indices, in loop order. -/
def searchRanked (sq : Rat → Rat) (corpus : Corpus) (query : List Rat)
    (filters : Option CourseFilter) (limit : Nat) : List SimilarCourse :=
  (selectedIndices (simsOf sq query (applyFilters corpus filters)) limit).map
    (matchAt (applyFilters corpus filters)
      (simsOf sq query (applyFilters corpus filters)))

/-- The rows surviving the pipeline's filter (no level constraint, inactive
excluded) when the `is_active` column exists. -/
def activeRows (corpus : Corpus) : List CourseRow :=
  corpus.rows.filter (fun r => r.is_active)

/-- The search call the blocking pipeline makes for `max_results = 3` and no
level filter: `limit = min(50, 3 * 3) = 9`, inactive courses excluded. -/
def searchNine (sq : Rat → Rat) (corpus : Corpus)
    (loader : Except String Corpus) (emb : List Rat) : List SimilarCourse :=
  (searchSimilarCourses sq (some corpus) loader emb
    (some ⟨none, none, false⟩) 9).1

/-- An active, well-formed corpus row whose similarity against the query
`[1]` is 1. -/
def c7Row : CourseRow :=
  ⟨some "X", some "C", some "T", some "D", some 100, some "CS", true, [1]⟩

/-- A corpus with ten active candidates, all above the threshold. -/
def c7Corpus : Corpus := ⟨List.replicate 10 c7Row, true⟩

/-- Collaborators wiring the real search over the ten-candidate corpus. -/
def c7Deps : PipelineDeps :=
  ⟨fun _ => .ok "desc", fun _ => .ok [1],
   fun e f l =>
     (searchSimilarCourses id (some c7Corpus) (.ok c7Corpus) e (some f) l).1,
   fun _ _ => .ok "t", fun _ _ => .ok "e"⟩

/-- The end-to-end request: no level filter, `max_results = 3`. -/
def c7Req : RecRequest := ⟨"q", none, 3, false⟩

/-- A one-row corpus for the C7 witness. -/
def c7wCorpus : Corpus := ⟨[c7Row], true⟩

/-- The user of the C1 scenario: a student with no department. -/
def c1User : User := ⟨"u1", .student, none⟩

/-- First corpus row of the tie-order scenario (loaded first). -/
def c3RowA : CourseRow :=
  ⟨some "A", some "CSA", some "TA", some "DA", some 100, some "CS", true, [1]⟩

/-- Second corpus row of the tie-order scenario (loaded second), with an
embedding identical to the first row's. -/
def c3RowB : CourseRow :=
  ⟨some "B", some "CSB", some "TB", some "DB", some 100, some "CS", true, [1]⟩

/-- The two-row corpus of the tie-order scenario. -/
def c3Corpus : Corpus := ⟨[c3RowA, c3RowB], true⟩

/-- A corpus row whose `id` column is missing: building its `Course` raises
`KeyError`. -/
def c10Row : CourseRow :=
  ⟨none, some "C", some "T", some "D", some 100, none, true, [1]⟩

/-- A corpus holding only the malformed row. -/
def c10Corpus : Corpus := ⟨[c10Row], true⟩

/-! ## Theorems -/

/-- C8: for every query vector and candidate embedding, when either vector's
magnitude is zero (equivalently its squared magnitude is zero) the computed
cosine similarity is exactly `0`: the `where=norms != 0` guard routes the
zero-magnitude case to the zero output array instead of dividing, and the
(total) function neither divides by zero nor produces an undefined value.
`sq` is the square-root function, of which only `sq 0 = 0` is used. -/
theorem similarity_zero_magnitude (sq : Rat → Rat) (h0 : sq 0 = 0)
    (query emb : List Rat) (h : normSq emb = 0 ∨ normSq query = 0) :
    calcSim sq query emb = 0 := by
  unfold calcSim
  rcases h with h | h <;> simp [h, h0]

/-- Witness for C8 at a concrete zero vector. -/
theorem similarity_zero_magnitude_witness :
    (id (0 : Rat) = 0 ∧ (normSq [0, 0] = 0 ∨ normSq [1] = 0)) ∧
      calcSim id [1] [0, 0] = 0 :=
  ⟨⟨rfl, Or.inl (by with_unfolding_all decide)⟩,
   similarity_zero_magnitude id rfl [1] [0, 0]
     (Or.inl (by with_unfolding_all decide))⟩

/-- C9 counterexample: the claim is false as stated, at two concrete inputs
(value type `Int`, default TTL 3600 as configured).  First, with `ttl = 5`,
an entry set at time 0 is still returned by `get` at time 5, although the
ttl has then elapsed.  Second, `set(k, v, ttl=0)` does not expire immediately:
a zero `timedelta` is falsy, so the code silently falls back to the default
TTL and `get` still returns the value at time 1. -/
theorem cache_roundtrip_counterexample :
    (MemoryCache.get 5 "k"
        (MemoryCache.set 0 "k" (7 : Int) (some 5) (emptyCache Int 3600))).1 =
      some 7 ∧
    (MemoryCache.get 1 "k"
        (MemoryCache.set 0 "k" (7 : Int) (some 0) (emptyCache Int 3600))).1 =
      some 7 := by
  constructor <;> rfl

/-- C9 (amended): for every positive `ttl`, `set` followed immediately by
`get` returns the value unchanged; a `get` strictly after the expiry instant
`now + ttl` returns absent; and no read — `get`, `exists`, `get_many`, or the
read inside `increment` — ever observes an entry whose expiry instant is
strictly in the past (at the expiry instant itself the entry is still
visible, since cleanup removes only `expiry_time < now`; `ttl = 0` falls back
to the default TTL). -/
theorem cache_roundtrip {V : Type} (s : CacheState V) (now : Nat) (k : String)
    (v : V) (ttl : Nat) (h : 0 < ttl) :
    (MemoryCache.get now k (MemoryCache.set now k v (some ttl) s)).1 = some v ∧
    (∀ t, now + ttl < t →
      (MemoryCache.get t k (MemoryCache.set now k v (some ttl) s)).1 = none) ∧
    (∀ (s2 : CacheState V) t k2 v2 e, (MemoryCache.get t k2 s2).1 = some v2 →
      s2.expiry k2 = some e → t ≤ e) ∧
    (∀ (s2 : CacheState V) t k2 e, (MemoryCache.existsKey t k2 s2).1 = true →
      s2.expiry k2 = some e → t ≤ e) ∧
    (∀ (s2 : CacheState V) t ks k2 v2 e,
      (k2, v2) ∈ (MemoryCache.getMany t ks s2).1 →
      s2.expiry k2 = some e → t ≤ e) ∧
    (∀ (s3 : CacheState Int) t k2 a e, s3.expiry k2 = some e → e < t →
      (MemoryCache.increment t k2 a s3).1 = a) := by
  refine ⟨?_, ?_, ?_, ?_, ?_, ?_⟩
  · have h1 : ¬ (now + ttl < now) := by omega
    simp [MemoryCache.get, MemoryCache.set, MemoryCache.cleanupExpired, fupd,
      h.ne', h1]
  · intro t ht
    simp [MemoryCache.get, MemoryCache.set, MemoryCache.cleanupExpired, fupd,
      h.ne', ht]
  · intro s2 t k2 v2 e hget hexp
    by_contra hlt
    simp only [MemoryCache.get, MemoryCache.cleanupExpired, hexp] at hget
    rw [if_pos (by omega)] at hget
    exact Option.noConfusion hget
  · intro s2 t k2 e hex hexp
    by_contra hlt
    simp only [MemoryCache.existsKey, MemoryCache.cleanupExpired, hexp] at hex
    rw [if_pos (by omega)] at hex
    exact Bool.noConfusion hex
  · intro s2 t ks k2 v2 e hmem hexp
    by_contra hlt
    simp only [MemoryCache.getMany, List.mem_filterMap] at hmem
    obtain ⟨k3, _, hk3⟩ := hmem
    simp only [Option.map_eq_some'] at hk3
    obtain ⟨v3, hv3, heq⟩ := hk3
    obtain ⟨rfl, rfl⟩ : k3 = k2 ∧ v3 = v2 := by
      exact ⟨congrArg Prod.fst heq, congrArg Prod.snd heq⟩
    simp only [MemoryCache.cleanupExpired, hexp] at hv3
    rw [if_pos (by omega)] at hv3
    exact Option.noConfusion hv3
  · intro s3 t k2 a e hexp hlt
    simp [MemoryCache.increment, MemoryCache.cleanupExpired, hexp, hlt]

/-- Cleanup changes nothing that a second cleanup at the same instant would
still remove: the visible cache is stable. -/
theorem cleanup_cache_idem {V : Type} (now : Nat) (s : CacheState V)
    (k : String) :
    (MemoryCache.cleanupExpired now (MemoryCache.cleanupExpired now s)).cache k
      = (MemoryCache.cleanupExpired now s).cache k := by
  simp only [MemoryCache.cleanupExpired]
  cases h : s.expiry k with
  | none => simp [h]
  | some e =>
      by_cases he : e < now
      · simp [h, he]
      · simp [h, he]

/-- Every role's rate limit is positive. -/
theorem getRateLimitForUser_pos (u : User) : 0 < getRateLimitForUser u := by
  cases h : u.role <;> simp [getRateLimitForUser, h]

/-- Rejection branch of `check_rate_limit`: when the visible bucket count has
reached the limit, the decision is a rejection with the constant
`retry_after = 60`, and the state is only cleaned, not incremented. -/
theorem checkRateLimit_reject (u : User) (now : Nat) (s : CacheState Int)
    (h : getRateLimitForUser u ≤ bucketCount u now s) :
    checkRateLimit u now s =
      ({ allowed := false, current_count := bucketCount u now s,
         limit := getRateLimitForUser u, reset_time := now + 60,
         retry_after := some 60 }, MemoryCache.cleanupExpired now s) := by
  unfold bucketCount at h
  unfold checkRateLimit MemoryCache.get bucketCount
  dsimp only
  rw [if_pos h]

/-- The visible value right after a `set` with a non-zero ttl is the value
just stored. -/
theorem cleanup_set_same {V : Type} (s : CacheState V) (now : Nat) (k : String)
    (v : V) (ttl : Nat) (h : ttl ≠ 0) :
    (MemoryCache.cleanupExpired now
        (MemoryCache.set now k v (some ttl) s)).cache k = some v := by
  have h1 : ¬ (now + ttl < now) := by omega
  simp [MemoryCache.set, MemoryCache.cleanupExpired, fupd, h, h1]

/-- The state produced by the acceptance branch of `check_rate_limit`. -/
theorem checkRateLimit_accept_state (u : User) (now : Nat) (s : CacheState Int)
    (h : bucketCount u now s < getRateLimitForUser u) :
    (checkRateLimit u now s).2 =
      MemoryCache.set now (rateKey u.id now) (bucketCount u now s + 1) (some 60)
        (MemoryCache.increment now (rateKey u.id now) 1
          (MemoryCache.cleanupExpired now s)).2 := by
  unfold bucketCount at h
  unfold checkRateLimit MemoryCache.get
  dsimp only
  rw [if_neg (not_le.mpr h)]
  rfl

/-- Acceptance branch of `check_rate_limit`: below the limit, the decision is
an acceptance carrying count + 1, and the stored counter becomes count + 1
with a fresh one-minute expiry. -/
theorem checkRateLimit_accept (u : User) (now : Nat) (s : CacheState Int)
    (h : bucketCount u now s < getRateLimitForUser u) :
    (checkRateLimit u now s).1 =
      { allowed := true, current_count := bucketCount u now s + 1,
        limit := getRateLimitForUser u, reset_time := now + 60,
        retry_after := none } ∧
    bucketCount u now (checkRateLimit u now s).2 = bucketCount u now s + 1 := by
  constructor
  · unfold bucketCount at h
    unfold checkRateLimit MemoryCache.get bucketCount
    dsimp only
    rw [if_neg (not_le.mpr h)]
  · rw [checkRateLimit_accept_state u now s h]
    unfold bucketCount
    rw [cleanup_set_same _ _ _ _ _ (by omega)]
    rfl

/-- Rejection leaves the visible bucket count unchanged. -/
theorem checkRateLimit_reject_count (u : User) (now : Nat) (s : CacheState Int)
    (h : getRateLimitForUser u ≤ bucketCount u now s) :
    bucketCount u now (checkRateLimit u now s).2 = bucketCount u now s := by
  rw [checkRateLimit_reject u now s h]
  unfold bucketCount
  rw [cleanup_cache_idem]

/-- Starting from a fresh bucket, `n` checks leave the visible counter at
`min n L`. -/
theorem bucketCount_after (u : User) (now : Nat) (s : CacheState Int)
    (h0 : bucketCount u now s = 0) (n : Nat) :
    bucketCount u now (stateAfterChecks u now n s) =
      min (n : Int) (getRateLimitForUser u) := by
  induction n with
  | zero =>
      have := getRateLimitForUser_pos u
      simp only [stateAfterChecks, h0, Nat.cast_zero]
      omega
  | succ n ih =>
      have hL := getRateLimitForUser_pos u
      simp only [stateAfterChecks]
      by_cases hc : (n : Int) < getRateLimitForUser u
      · have := (checkRateLimit_accept u now (stateAfterChecks u now n s)
          (by rw [ih]; omega)).2
        rw [this, ih]
        push_cast
        omega
      · have hge : getRateLimitForUser u ≤
            bucketCount u now (stateAfterChecks u now n s) := by
          rw [ih]; omega
        rw [checkRateLimit_reject_count u now _ hge, ih]
        push_cast
        omega

/-- C4 counterexample: the claim's `retry_after` clause is false as stated.
A guest (limit 5) whose current bucket already holds 5 requests is checked at
`now = 90`, i.e. 30 seconds before the bucket rolls over at 120; the code
rejects with the constant `retry_after = 60`, not the remaining
`60 - 90 % 60 = 30` seconds. -/
theorem rate_limit_retry_after_counterexample :
    (checkRateLimit ⟨"u", .guest, none⟩ 90
        (MemoryCache.set 90 (rateKey "u" 90) 5 (some 60)
          (emptyCache Int 3600))).1.allowed = false ∧
    (checkRateLimit ⟨"u", .guest, none⟩ 90
        (MemoryCache.set 90 (rateKey "u" 90) 5 (some 60)
          (emptyCache Int 3600))).1.retry_after = some 60 ∧
    ¬ (checkRateLimit ⟨"u", .guest, none⟩ 90
        (MemoryCache.set 90 (rateKey "u" 90) 5 (some 60)
          (emptyCache Int 3600))).1.retry_after = some (60 - 90 % 60) := by
  with_unfolding_all decide

/-- C4 (amended): for a user whose role has rate limit `L`, if the visible
60-second bucket count is at least `L` then `check_rate_limit` rejects with
the constant `retry_after = 60` (the code does not compute the remaining
bucket seconds) and does not increment the counter (the state is merely
cleaned); otherwise it increments the bucket counter and accepts.  Hence,
starting from a fresh bucket, each of the first `L` checks is accepted, the
`(L+1)`-th is rejected, and a check in a fresh bucket (as immediately after
rollover) is accepted. -/
theorem rate_limit_window (u : User) (now : Nat) (s : CacheState Int) :
    (getRateLimitForUser u ≤ bucketCount u now s →
      checkRateLimit u now s =
        ({ allowed := false, current_count := bucketCount u now s,
           limit := getRateLimitForUser u, reset_time := now + 60,
           retry_after := some 60 }, MemoryCache.cleanupExpired now s) ∧
      bucketCount u now (checkRateLimit u now s).2 = bucketCount u now s) ∧
    (bucketCount u now s < getRateLimitForUser u →
      (checkRateLimit u now s).1 =
        { allowed := true, current_count := bucketCount u now s + 1,
          limit := getRateLimitForUser u, reset_time := now + 60,
          retry_after := none } ∧
      bucketCount u now (checkRateLimit u now s).2 = bucketCount u now s + 1) ∧
    (bucketCount u now s = 0 →
      (∀ n : Nat, (n : Int) < getRateLimitForUser u →
        (checkRateLimit u now (stateAfterChecks u now n s)).1.allowed = true) ∧
      (checkRateLimit u now
        (stateAfterChecks u now (getRateLimitForUser u).toNat s)).1.allowed =
        false) ∧
    (bucketCount u now s = 0 → (checkRateLimit u now s).1.allowed = true) := by
  refine ⟨?_, ?_, ?_, ?_⟩
  · intro h
    exact ⟨checkRateLimit_reject u now s h, checkRateLimit_reject_count u now s h⟩
  · intro h
    exact checkRateLimit_accept u now s h
  · intro h0
    constructor
    · intro n hn
      have hc : bucketCount u now (stateAfterChecks u now n s) <
          getRateLimitForUser u := by
        rw [bucketCount_after u now s h0 n]; omega
      rw [(checkRateLimit_accept u now _ hc).1]
    · have hL := getRateLimitForUser_pos u
      have hge : getRateLimitForUser u ≤
          bucketCount u now
            (stateAfterChecks u now (getRateLimitForUser u).toNat s) := by
        rw [bucketCount_after u now s h0]
        omega
      rw [checkRateLimit_reject u now _ hge]
  · intro h0
    have hc : bucketCount u now s < getRateLimitForUser u := by
      rw [h0]; exact getRateLimitForUser_pos u
    rw [(checkRateLimit_accept u now s hc).1]

/-- Witness for C4: a guest's first check of a fresh minute bucket, from the
empty cache, is accepted. -/
theorem rate_limit_window_witness :
    bucketCount ⟨"u", .guest, none⟩ 0 (emptyCache Int 3600) = 0 ∧
    (checkRateLimit ⟨"u", .guest, none⟩ 0 (emptyCache Int 3600)).1.allowed =
      true :=
  ⟨by with_unfolding_all decide,
   (rate_limit_window ⟨"u", .guest, none⟩ 0 (emptyCache Int 3600)).2.2.2
     (by with_unfolding_all decide)⟩

/-- Enrichment returns a list of the same length when it succeeds. -/
theorem enrichList_length (expl : Course → String → Except String String)
    (q : String) (cs : List SimilarCourse) (l : List SimilarCourse)
    (h : enrichList expl q cs = .ok l) : l.length = cs.length := by
  induction cs generalizing l with
  | nil =>
      simp only [enrichList] at h
      cases h
      rfl
  | cons sc rest ih =>
      simp only [enrichList] at h
      cases h1 : enrichOne expl q sc with
      | error e => rw [h1] at h; exact absurd h (by simp)
      | ok sc2 =>
          rw [h1] at h
          cases h2 : enrichList expl q rest with
          | error e => rw [h2] at h; exact absurd h (by simp)
          | ok tail =>
              rw [h2] at h
              cases h
              simp [ih tail h2]

/-- Step 6 in-place enrichment preserves the length of the match list. -/
theorem enrich_length (expl : Course → String → Except String String)
    (q : String) (n : Nat) (cs : List SimilarCourse) (l : List SimilarCourse)
    (h : enrich expl q n cs = .ok l) : l.length = cs.length := by
  unfold enrich at h
  cases h1 : enrichList expl q (cs.take n) with
  | error e => rw [h1] at h; exact absurd h (by simp)
  | ok pre =>
      rw [h1] at h
      cases h
      have := enrichList_length expl q (cs.take n) pre h1
      simp [this]
      omega

/-- C2 (amended): when the per-match explanation generator fails after matches
have been retrieved, the call does not succeed: the exception propagates out
of the Step 6 loop into the outer handler, which records a failure usage
entry (when a requester is present) and re-raises, so the caller receives the
error and no matches at all. -/
theorem explanation_failure_propagates (d : PipelineDeps) (req : RecRequest)
    (user : Option User) (desc : String) (emb : List Rat) (e : String)
    (h1 : d.genDesc req.query = .ok desc)
    (h2 : d.genEmb desc = .ok emb)
    (h3 : (d.search emb ⟨req.levels, none, false⟩
      (min 50 (req.max_results * 3))).isEmpty = false)
    (h4 : ∃ txt, d.genRecText req.query
      ((d.search emb ⟨req.levels, none, false⟩
        (min 50 (req.max_results * 3))).take (req.max_results * 2)) = .ok txt)
    (h5 : req.include_explanations = true)
    (h6 : enrich d.explain req.query req.max_results
      (d.search emb ⟨req.levels, none, false⟩
        (min 50 (req.max_results * 3))) = .error e) :
    getRecommendations d req user = (.error e, logFor user failEntry) := by
  obtain ⟨txt, h4⟩ := h4
  simp only [getRecommendations, h1, h2, h3, h4, h5, h6, Bool.false_eq_true,
    if_false, if_true]

/-- C2 counterexample: with one retrieved match (second conjunct) and a
failing explanation generator, `get_recommendations` raises instead of
returning the match without an explanation — the claim's "the call still
succeeds" is false on the code. -/
theorem explanation_failure_counterexample :
    getRecommendations c2Deps c2Req (some cexUser) =
      (.error "boom", [failEntry]) ∧
    c2Deps.search [1] ⟨none, none, false⟩ 9 = [cexMatch] := by
  constructor <;> rfl

/-- Witness for C2 at the concrete collaborators of the counterexample. -/
theorem explanation_failure_witness :
    (c2Deps.genDesc c2Req.query = .ok "desc" ∧
     c2Deps.genEmb "desc" = .ok [1] ∧
     (c2Deps.search [1] ⟨c2Req.levels, none, false⟩
       (min 50 (c2Req.max_results * 3))).isEmpty = false ∧
     c2Req.include_explanations = true) ∧
    getRecommendations c2Deps c2Req (some cexUser) =
      (.error "boom", logFor (some cexUser) failEntry) :=
  ⟨⟨rfl, rfl, rfl, rfl⟩,
   explanation_failure_propagates c2Deps c2Req (some cexUser) "desc" [1] "boom"
     rfl rfl rfl ⟨"text", rfl⟩ rfl rfl⟩

/-- C6 (amended): with a requester present, at most one usage-ledger record is
written per blocking-pipeline invocation — exactly one on any failure (a
failure record) and exactly one on a success that returns matches (a success
record) — but the zero-match early return writes none; and
`UsageService.record_request` itself never raises: the in-memory append
happens unconditionally and a storage failure only flips the returned flag. -/
theorem usage_recorded_once (d : PipelineDeps) (req : RecRequest) (u : User)
    (hmax : 1 ≤ req.max_results) :
    ((getRecommendations d req (some u)).2.length ≤ 1) ∧
    (∀ e, (getRecommendations d req (some u)).1 = .error e →
      (getRecommendations d req (some u)).2 = [failEntry]) ∧
    (∀ r, (getRecommendations d req (some u)).1 = .ok r →
      r.recommendations = [] → (getRecommendations d req (some u)).2 = []) ∧
    (∀ r, (getRecommendations d req (some u)).1 = .ok r →
      r.recommendations ≠ [] →
      (getRecommendations d req (some u)).2 =
        [⟨true, r.recommendations.length⟩]) ∧
    (∀ (ok : Bool) (rs : List UsageEntry) (rec : UsageEntry),
      usageRecordRequest ok rs rec = (ok, rs ++ [rec])) := by
  have main : ∀ e, (getRecommendations d req (some u)).1 = .error e →
      (getRecommendations d req (some u)).2 = [failEntry] := by
    intro e he
    unfold getRecommendations at he ⊢
    cases h1 : d.genDesc req.query with
    | error e1 => simp [logFor]
    | ok desc =>
        rw [h1] at he
        dsimp only at he ⊢
        cases h2 : d.genEmb desc with
        | error e2 => simp [logFor]
        | ok emb =>
            rw [h2] at he
            dsimp only at he ⊢
            cases h3 : (d.search emb ⟨req.levels, none, false⟩
                (min 50 (req.max_results * 3))).isEmpty with
            | true =>
                rw [h3, if_pos rfl] at he
                exact absurd he (by simp)
            | false =>
                rw [h3, if_neg Bool.false_ne_true] at he
                rw [if_neg Bool.false_ne_true]
                cases h4 : d.genRecText req.query
                    ((d.search emb ⟨req.levels, none, false⟩
                      (min 50 (req.max_results * 3))).take
                      (req.max_results * 2)) with
                | error e4 => simp [logFor]
                | ok txt =>
                    rw [h4] at he
                    dsimp only at he ⊢
                    cases h5 : (if req.include_explanations then
                        enrich d.explain req.query req.max_results
                          (d.search emb ⟨req.levels, none, false⟩
                            (min 50 (req.max_results * 3)))
                      else .ok (d.search emb ⟨req.levels, none, false⟩
                        (min 50 (req.max_results * 3)))) with
                    | error e5 => simp [logFor]
                    | ok sim2 =>
                        rw [h5] at he
                        exact absurd he (by simp)
  have okcase : ∀ r, (getRecommendations d req (some u)).1 = .ok r →
      ((r.recommendations = [] ∧ (getRecommendations d req (some u)).2 = []) ∨
       (r.recommendations ≠ [] ∧ (getRecommendations d req (some u)).2 =
         [⟨true, r.recommendations.length⟩])) := by
    intro r hr
    unfold getRecommendations at hr ⊢
    cases h1 : d.genDesc req.query with
    | error e1 => rw [h1] at hr; exact absurd hr (by simp)
    | ok desc =>
        rw [h1] at hr
        dsimp only at hr ⊢
        cases h2 : d.genEmb desc with
        | error e2 => rw [h2] at hr; exact absurd hr (by simp)
        | ok emb =>
            rw [h2] at hr
            dsimp only at hr ⊢
            cases h3 : (d.search emb ⟨req.levels, none, false⟩
                (min 50 (req.max_results * 3))).isEmpty with
            | true =>
                rw [h3, if_pos rfl] at hr
                rw [if_pos rfl]
                left
                refine ⟨?_, rfl⟩
                cases hr
                rfl
            | false =>
                rw [h3, if_neg Bool.false_ne_true] at hr
                rw [if_neg Bool.false_ne_true]
                cases h4 : d.genRecText req.query
                    ((d.search emb ⟨req.levels, none, false⟩
                      (min 50 (req.max_results * 3))).take
                      (req.max_results * 2)) with
                | error e4 => rw [h4] at hr; exact absurd hr (by simp)
                | ok txt =>
                    rw [h4] at hr
                    dsimp only at hr ⊢
                    cases h5 : (if req.include_explanations then
                        enrich d.explain req.query req.max_results
                          (d.search emb ⟨req.levels, none, false⟩
                            (min 50 (req.max_results * 3)))
                      else .ok (d.search emb ⟨req.levels, none, false⟩
                        (min 50 (req.max_results * 3)))) with
                    | error e5 => rw [h5] at hr; exact absurd hr (by simp)
                    | ok sim2 =>
                        rw [h5] at hr
                        right
                        cases hr
                        refine ⟨?_, rfl⟩
                        have hlen : sim2.length =
                            (d.search emb ⟨req.levels, none, false⟩
                              (min 50 (req.max_results * 3))).length := by
                          by_cases h6 : req.include_explanations = true
                          · rw [if_pos h6] at h5
                            exact enrich_length _ _ _ _ _ h5
                          · rw [if_neg h6] at h5
                            cases h5
                            rfl
                        have hne : (d.search emb ⟨req.levels, none, false⟩
                            (min 50 (req.max_results * 3))) ≠ [] := by
                          intro hnil
                          rw [hnil] at h3
                          simp at h3
                        simp only [ne_eq, List.take_eq_nil_iff]
                        push_neg
                        constructor
                        · omega
                        · intro hsim2
                          rw [hsim2] at hlen
                          exact hne (List.length_eq_zero.mp hlen.symm)
  refine ⟨?_, main, ?_, ?_, fun ok rs rec => rfl⟩
  · cases hres : (getRecommendations d req (some u)).1 with
    | error e => rw [main e hres]; decide
    | ok r =>
        rcases okcase r hres with ⟨_, h⟩ | ⟨_, h⟩ <;> rw [h] <;> simp
  · intro r hr hnil
    rcases okcase r hr with ⟨_, h⟩ | ⟨hne, _⟩
    · exact h
    · exact absurd hnil hne
  · intro r hr hne
    rcases okcase r hr with ⟨hnil, _⟩ | ⟨_, h⟩
    · exact absurd hnil hne
    · exact h

/-- C6 counterexample: a successful zero-match invocation with a requester
present writes no usage record at all — the claim's "exactly one record per
invocation" is false on the code, because the Step 4 early return precedes
Step 7. -/
theorem usage_recorded_once_counterexample :
    (getRecommendations c6Deps c2Req (some cexUser)).1 =
      .ok (emptyRecResponse "q") ∧
    (getRecommendations c6Deps c2Req (some cexUser)).2 = [] := by
  constructor <;> rfl

/-- Witness for C6 at concrete collaborators. -/
theorem usage_recorded_once_witness :
    1 ≤ c2Req.max_results ∧
    (getRecommendations c6Deps c2Req (some cexUser)).2.length ≤ 1 :=
  ⟨by decide, (usage_recorded_once c6Deps c2Req cexUser (by decide)).1⟩

/-! ### Ranking lemmas for the similarity search -/

/-- The score stored in the match built at index `i` is `similarities[i]`. -/
theorem matchAt_score (rows : List CourseRow) (sims : List Rat) (i : Nat) :
    (matchAt rows sims i).similarity_score = simAt sims i := by
  unfold matchAt
  cases (rows.get? i).bind (fun row => (mkCourse row).toOption) <;> rfl

/-- Filtering an empty DataFrame yields an empty DataFrame. -/
theorem applyFilters_nil (b : Bool) (filters : Option CourseFilter) :
    applyFilters ⟨[], b⟩ filters = [] := by
  cases filters with
  | none => rfl
  | some f =>
      rcases f with ⟨ls, ds, ii⟩
      unfold applyFilters
      cases ls <;> cases ds <;> cases ii <;> dsimp only <;>
        (repeat' split) <;> simp

/-- `argsort` returns a permutation of the index range. -/
theorem argsort_perm_range (sims : List Rat) :
    List.Perm (argsort sims) (List.range sims.length) := by
  unfold argsort
  have h := (List.perm_insertionSort argLe sims.enum).map Prod.fst
  rwa [List.enum_map_fst] at h

/-- Indices produced by `argsort` are in range. -/
theorem mem_argsort_lt (sims : List Rat) (i : Nat) (h : i ∈ argsort sims) :
    i < sims.length := by
  have := (argsort_perm_range sims).mem_iff.mp h
  exact List.mem_range.mp this

/-- `argsort` contains no duplicate indices. -/
theorem argsort_nodup (sims : List Rat) : (argsort sims).Nodup :=
  ((argsort_perm_range sims).nodup_iff).mpr (List.nodup_range _)

/-- The pairs being sorted carry exactly the similarity at their index. -/
theorem sortedPairs_val (sims : List Rat) (p : Nat × Rat)
    (h : p ∈ List.insertionSort argLe sims.enum) : p.2 = simAt sims p.1 := by
  have hm : p ∈ sims.enum := (List.perm_insertionSort argLe sims.enum).mem_iff.mp h
  have := List.mem_enum_iff_getElem?.mp hm
  simp [simAt, List.getD_eq_getElem?_getD, this]

/-- `argsort` lists indices in strictly ascending rank order. -/
theorem argsort_pairwise (sims : List Rat) :
    List.Pairwise (ascRank sims) (argsort sims) := by
  have hs : List.Pairwise argLe (List.insertionSort argLe sims.enum) :=
    List.sorted_insertionSort argLe sims.enum
  have hw : List.Pairwise
      (fun p q : Nat × Rat => simAt sims p.1 < simAt sims q.1 ∨
        (simAt sims p.1 = simAt sims q.1 ∧ p.1 ≤ q.1))
      (List.insertionSort argLe sims.enum) := by
    refine hs.imp_of_mem ?_
    intro p q hp hq hpq
    rcases hpq with h | ⟨h, h2⟩
    · rw [sortedPairs_val sims p hp, sortedPairs_val sims q hq] at h
      exact Or.inl h
    · rw [sortedPairs_val sims p hp, sortedPairs_val sims q hq] at h
      exact Or.inr ⟨h, h2⟩
  have hmap : List.Pairwise
      (fun i j : Nat => simAt sims i < simAt sims j ∨
        (simAt sims i = simAt sims j ∧ i ≤ j)) (argsort sims) := by
    unfold argsort
    exact (List.pairwise_map).mpr hw
  have hne : List.Pairwise (fun i j : Nat => i ≠ j) (argsort sims) :=
    argsort_nodup sims
  refine (hmap.and hne).imp ?_
  rintro i j ⟨h1 | ⟨h1, h2⟩, hne2⟩
  · exact Or.inl h1
  · exact Or.inr ⟨h1, lt_of_le_of_ne h2 hne2⟩

/-- The `[-limit:]` slice is a sublist. -/
theorem sliceLast_sublist {α : Type} (limit : Nat) (l : List α) :
    (sliceLast limit l).Sublist l := by
  unfold sliceLast
  split
  · exact List.Sublist.refl l
  · exact List.drop_sublist _ l

/-- `top_indices` is in strictly descending rank order: higher similarity
first, ties broken by the larger (later-loaded) corpus index first. -/
theorem topIndices_pairwise (sims : List Rat) (limit : Nat) :
    List.Pairwise (fun i j => ascRank sims j i) (topIndices sims limit) := by
  unfold topIndices
  rw [List.pairwise_reverse]
  exact (argsort_pairwise sims).sublist (sliceLast_sublist limit (argsort sims))

/-- The selected indices keep the strictly descending rank order. -/
theorem selectedIndices_pairwise (sims : List Rat) (limit : Nat) :
    List.Pairwise (fun i j => ascRank sims j i)
      (selectedIndices sims limit) :=
  (topIndices_pairwise sims limit).filter _

/-- Every selected index passed the similarity threshold. -/
theorem selectedIndices_threshold (sims : List Rat) (limit : Nat) (i : Nat)
    (h : i ∈ selectedIndices sims limit) : (1 : Rat) / 2 < simAt sims i := by
  unfold selectedIndices at h
  have := (List.mem_filter.mp h).2
  exact of_decide_eq_true this

/-- Every selected index is in range. -/
theorem selectedIndices_lt (sims : List Rat) (limit : Nat) (i : Nat)
    (h : i ∈ selectedIndices sims limit) : i < sims.length := by
  unfold selectedIndices topIndices at h
  have h1 := (List.mem_filter.mp h).1
  rw [List.mem_reverse] at h1
  exact mem_argsort_lt sims i ((sliceLast_sublist _ _).mem h1)

/-- A well-formed row yields a course. -/
theorem mkCourse_isOk (r : CourseRow) (h : RowWF r) :
    ∃ c, mkCourse r = .ok c := by
  obtain ⟨h1, h2, h3, h4, h5⟩ := h
  obtain ⟨a1, e1⟩ := Option.isSome_iff_exists.mp h1
  obtain ⟨a2, e2⟩ := Option.isSome_iff_exists.mp h2
  obtain ⟨a3, e3⟩ := Option.isSome_iff_exists.mp h3
  obtain ⟨a4, e4⟩ := Option.isSome_iff_exists.mp h4
  obtain ⟨a5, e5⟩ := Option.isSome_iff_exists.mp h5
  refine ⟨⟨a1, a2, a3, a4, a5, r.department.getD "Unknown"⟩, ?_⟩
  simp [mkCourse, e1, e2, e3, e4, e5]

/-- When every row is well formed and every index is in range, the result
loop succeeds and builds exactly the matches at the selected indices. -/
theorem buildMatches_ok (rows : List CourseRow) (sims : List Rat)
    (idxs : List Nat) (hwf : ∀ r ∈ rows, RowWF r)
    (hlt : ∀ i ∈ idxs, i < rows.length) :
    buildMatches rows sims idxs = .ok (idxs.map (matchAt rows sims)) := by
  induction idxs with
  | nil => rfl
  | cons i rest ih =>
      have hi : i < rows.length := hlt i (List.mem_cons_self i rest)
      obtain ⟨row, hrow⟩ : ∃ row, rows.get? i = some row :=
        ⟨rows.get ⟨i, hi⟩, List.get?_eq_get hi⟩
      have hmem : row ∈ rows := List.get?_mem hrow
      obtain ⟨c, hc⟩ := mkCourse_isOk _ (hwf _ hmem)
      have hrest : buildMatches rows sims rest =
          .ok (rest.map (matchAt rows sims)) :=
        ih fun j hj => hlt j (List.mem_cons_of_mem i hj)
      have hmatch : matchAt rows sims i = ⟨c, simAt sims i, none⟩ := by
        unfold matchAt
        rw [hrow]
        simp [hc, Except.toOption]
      unfold buildMatches
      rw [hrow]
      dsimp only
      rw [hc, hrest, List.map_cons, hmatch]

/-- Selecting from an empty similarity array yields no indices. -/
theorem selectedIndices_nil (limit : Nat) : selectedIndices [] limit = [] := by
  unfold selectedIndices topIndices sliceLast argsort
  simp [List.insertionSort]

/-- Filtering only discards rows (boolean masking preserves order). -/
theorem applyFilters_sublist (c : Corpus) (filters : Option CourseFilter) :
    (applyFilters c filters).Sublist c.rows := by
  unfold applyFilters
  cases filters with
  | none => exact List.Sublist.refl _
  | some f =>
      rcases f with ⟨ls, ds, ii⟩
      cases ls <;> cases ds <;> cases ii <;> dsimp only <;> (repeat' split) <;>
        first
          | exact List.Sublist.refl _
          | exact List.filter_sublist _
          | exact (List.filter_sublist _).trans (List.filter_sublist _)
          | exact ((List.filter_sublist _).trans
              (List.filter_sublist _)).trans (List.filter_sublist _)

/-- On a well-formed corpus the search body succeeds and returns exactly the
ranked result list. -/
theorem searchBody_eq_ranked (sq : Rat → Rat) (corpus : Corpus)
    (query : List Rat) (filters : Option CourseFilter) (limit : Nat)
    (hwf : ∀ r ∈ corpus.rows, RowWF r) :
    searchBody sq corpus query filters limit =
      .ok (searchRanked sq corpus query filters limit) := by
  unfold searchBody searchRanked
  by_cases h0 : corpus.rows.length = 0
  · rw [if_pos h0]
    rcases corpus with ⟨rows, b⟩
    have hnil : rows = [] := List.length_eq_zero.mp h0
    subst hnil
    rw [applyFilters_nil]
    simp [simsOf, selectedIndices_nil]
  · rw [if_neg h0]
    by_cases h1 : (applyFilters corpus filters).length = 0
    · rw [if_pos h1]
      rw [List.length_eq_zero.mp h1]
      simp [simsOf, selectedIndices_nil]
    · rw [if_neg h1]
      apply buildMatches_ok
      · intro r hr
        exact hwf r ((applyFilters_sublist corpus filters).mem hr)
      · intro i hi
        have := selectedIndices_lt _ _ i hi
        rwa [simsOf, List.length_map] at this

/-- The `[-limit:]` slice keeps at most `limit` elements when `limit ≥ 1`. -/
theorem sliceLast_length_le {α : Type} (limit : Nat) (l : List α)
    (h : limit ≠ 0) : (sliceLast limit l).length ≤ limit := by
  unfold sliceLast
  rw [if_neg h, List.length_drop]
  omega

/-- On a non-increasing list, filtering by a threshold equals taking the
initial run above the threshold. -/
theorem filter_eq_takeWhile_of_sorted (c : Rat) (l : List Rat)
    (h : List.Pairwise (fun a b => b ≤ a) l) :
    l.filter (fun v => decide (c < v)) =
      l.takeWhile (fun v => decide (c < v)) := by
  induction l with
  | nil => rfl
  | cons a t ih =>
      rw [List.pairwise_cons] at h
      by_cases ha : c < a
      · simp [List.filter_cons, List.takeWhile_cons, ha, ih h.2]
      · have hfilter : List.filter (fun v => decide (c < v)) t = [] := by
          refine List.filter_eq_nil_iff.mpr ?_
          intro x hx
          simp only [decide_eq_true_eq]
          exact fun hcx => ha (lt_of_lt_of_le hcx (h.1 x hx))
        simp [List.filter_cons, List.takeWhile_cons, ha, hfilter]

/-- `takeWhile` commutes with a length-truncation. -/
theorem takeWhile_take {α : Type} (p : α → Bool) :
    ∀ (m : Nat) (l : List α),
      (l.take m).takeWhile p = (l.takeWhile p).take m := by
  intro m l
  induction l generalizing m with
  | nil => simp
  | cons a t ih =>
      cases m with
      | zero => simp
      | succ m =>
          rw [List.take_succ_cons, List.takeWhile_cons, List.takeWhile_cons]
          cases hpa : p a with
          | true => simp [List.take_succ_cons, ih m]
          | false => simp

/-- The fully-sorted descending value list is non-increasing. -/
theorem descAllVals_pairwise (sims : List Rat) :
    List.Pairwise (fun a b => b ≤ a) (descAllVals sims) := by
  unfold descAllVals
  rw [List.pairwise_map]
  have h : List.Pairwise (fun i j => ascRank sims j i) (argsort sims).reverse := by
    rw [List.pairwise_reverse]
    exact argsort_pairwise sims
  refine h.imp ?_
  intro i j hij
  rcases hij with h1 | ⟨h1, _⟩
  · exact le_of_lt h1
  · exact le_of_eq h1

/-- Reading every index of the range recovers the similarity list itself. -/
theorem map_simAt_range (sims : List Rat) :
    (List.range sims.length).map (simAt sims) = sims := by
  apply List.ext_getElem
  · simp
  · intro n h1 h2
    simp only [List.getElem_map, List.getElem_range]
    simp [simAt, List.getD_eq_getElem?_getD, List.getElem?_eq_getElem h2]

/-- The descending value list is a permutation of the similarity array. -/
theorem descAllVals_perm (sims : List Rat) :
    List.Perm (descAllVals sims) sims := by
  unfold descAllVals
  calc List.Perm ((argsort sims).reverse.map (simAt sims))
        ((List.range sims.length).map (simAt sims)) :=
        ((List.reverse_perm (argsort sims)).trans
          (argsort_perm_range sims)).map _
    _ = sims := map_simAt_range sims

/-- For a positive limit, `top_indices` is the first `limit` entries of the
descending index order. -/
theorem topIndices_eq_take (sims : List Rat) (limit : Nat) (h : limit ≠ 0) :
    topIndices sims limit = ((argsort sims).reverse).take limit := by
  unfold topIndices sliceLast
  rw [if_neg h, List.reverse_drop]
  rw [List.take_eq_take]
  simp
  omega

/-- The similarity values at the selected indices are the top `limit` of the
thresholded descending value list. -/
theorem selected_scores (sims : List Rat) (limit : Nat) (h : limit ≠ 0) :
    (selectedIndices sims limit).map (simAt sims) =
      ((descAllVals sims).filter (fun v => decide ((1 : Rat) / 2 < v))).take
        limit := by
  unfold selectedIndices
  have hcomp : (fun i => decide ((1 : Rat) / 2 < simAt sims i)) =
      ((fun v => decide ((1 : Rat) / 2 < v)) ∘ simAt sims) := rfl
  rw [hcomp, ← List.filter_map, topIndices_eq_take sims limit h,
    List.map_take]
  have hdesc : (argsort sims).reverse.map (simAt sims) = descAllVals sims :=
    rfl
  rw [hdesc]
  have hsortedTake : List.Pairwise (fun a b => b ≤ a)
      ((descAllVals sims).take limit) :=
    (descAllVals_pairwise sims).sublist (List.take_sublist _ _)
  rw [filter_eq_takeWhile_of_sorted _ _ hsortedTake, takeWhile_take,
    ← filter_eq_takeWhile_of_sorted _ _ (descAllVals_pairwise sims)]

/-- How many matches the search returns: the number of above-threshold
candidates, capped at `limit`. -/
theorem selected_length (sims : List Rat) (limit : Nat) (h : limit ≠ 0) :
    (selectedIndices sims limit).length =
      min limit (sims.countP (fun v => decide ((1 : Rat) / 2 < v))) := by
  have h1 : (selectedIndices sims limit).length =
      ((selectedIndices sims limit).map (simAt sims)).length := by
    rw [List.length_map]
  rw [h1, selected_scores sims limit h, List.length_take,
    ← List.countP_eq_length_filter,
    (descAllVals_perm sims).countP_eq]

/-- With no level/department filter, inactive courses excluded, and the
`is_active` column present, filtering keeps exactly the active rows. -/
theorem applyFilters_active (c : Corpus) (h : c.hasIsActive = true) :
    applyFilters c (some ⟨none, none, false⟩) =
      c.rows.filter (fun r => r.is_active) := by
  simp [applyFilters, h]

/-- C7 (amended): in the end-to-end scenario (no level filter,
`max_results = 3`), when description generation, embedding and text
generation succeed and the search finds at least one match, the pipeline
returns the first 3 matches of the limit-9 search, ranked best-first, every
returned match scoring above 1/2, the returned scores being exactly the top 3
of the thresholded descending candidate scores over the active corpus — and
`total_courses_searched` equals the number of active candidates above the
threshold capped at 9 (the search limit `min(50, 3·max_results)`), not the
uncapped number of candidates that passed filtering. -/
theorem end_to_end_scenario
    (sq : Rat → Rat) (corpus : Corpus) (loader : Except String Corpus)
    (gd : String → Except String String)
    (ge : String → Except String (List Rat))
    (gt : String → List SimilarCourse → Except String String)
    (ex : Course → String → Except String String)
    (q desc txt : String) (emb : List Rat) (user : Option User)
    (hwf : ∀ r ∈ corpus.rows, RowWF r) (hact : corpus.hasIsActive = true)
    (h1 : gd q = .ok desc) (h2 : ge desc = .ok emb)
    (h3 : ∀ l, gt q l = .ok txt)
    (hne : searchNine sq corpus loader emb ≠ []) :
    (getRecommendations
        ⟨gd, ge,
         fun e f l =>
           (searchSimilarCourses sq (some corpus) loader e (some f) l).1,
         gt, ex⟩
        ⟨q, none, 3, false⟩ user =
      (.ok ⟨(searchNine sq corpus loader emb).take 3, q,
            (searchNine sq corpus loader emb).length,
            some ("Found " ++
              toString (searchNine sq corpus loader emb).length ++
              " relevant courses based on your interests."),
            some desc⟩,
       logFor user
         ⟨true, ((searchNine sq corpus loader emb).take 3).length⟩)) ∧
    ((searchNine sq corpus loader emb).take 3).map
        (fun m => m.similarity_score) =
      ((descAllVals (simsOf sq emb (activeRows corpus))).filter
        (fun v => decide ((1 : Rat) / 2 < v))).take 3 ∧
    (searchNine sq corpus loader emb).length =
      min 9 ((simsOf sq emb (activeRows corpus)).countP
        (fun v => decide ((1 : Rat) / 2 < v))) ∧
    List.Pairwise (fun m1 m2 => m2.similarity_score ≤ m1.similarity_score)
      ((searchNine sq corpus loader emb).take 3) ∧
    (∀ m ∈ (searchNine sq corpus loader emb).take 3,
      (1 : Rat) / 2 < m.similarity_score) ∧
    (∀ m ∈ searchNine sq corpus loader emb, ∃ i,
      i < (activeRows corpus).length ∧
      m = matchAt (activeRows corpus)
        (simsOf sq emb (activeRows corpus)) i) := by
  have hout : searchNine sq corpus loader emb =
      (selectedIndices (simsOf sq emb (activeRows corpus)) 9).map
        (matchAt (activeRows corpus) (simsOf sq emb (activeRows corpus))) := by
    unfold searchNine searchSimilarCourses
    dsimp only
    rw [searchBody_eq_ranked sq corpus emb (some ⟨none, none, false⟩) 9 hwf]
    unfold searchRanked
    rw [applyFilters_active corpus hact]
    rfl
  refine ⟨?_, ?_, ?_, ?_, ?_, ?_⟩
  · unfold getRecommendations
    dsimp only
    rw [h1]
    dsimp only
    rw [h2]
    dsimp only
    have hmin : min 50 (3 * 3) = 9 := by norm_num
    rw [hmin]
    have hie : (searchSimilarCourses sq (some corpus) loader emb
        (some ⟨none, none, false⟩) 9).1.isEmpty ≠ true := by
      intro hT
      exact hne (List.isEmpty_iff.mp hT)
    rw [if_neg hie, h3]
    dsimp only
    rfl
  · rw [hout, ← List.map_take, List.map_map]
    have hcongr : ((selectedIndices (simsOf sq emb (activeRows corpus))
        9).take 3).map
        ((fun m => m.similarity_score) ∘
          matchAt (activeRows corpus) (simsOf sq emb (activeRows corpus))) =
        ((selectedIndices (simsOf sq emb (activeRows corpus)) 9).take 3).map
          (simAt (simsOf sq emb (activeRows corpus))) := by
      apply List.map_congr_left
      intro i _
      exact matchAt_score _ _ i
    rw [hcongr, List.map_take, selected_scores _ 9 (by omega),
      List.take_take]
    norm_num
  · rw [hout, List.length_map, selected_length _ 9 (by omega)]
  · have hp : List.Pairwise
        (fun m1 m2 => m2.similarity_score ≤ m1.similarity_score)
        (searchNine sq corpus loader emb) := by
      rw [hout, List.pairwise_map]
      refine (selectedIndices_pairwise _ _).imp ?_
      intro i j hij
      rw [matchAt_score, matchAt_score]
      rcases hij with hlt | ⟨heq, _⟩
      · exact le_of_lt hlt
      · exact le_of_eq heq
    exact hp.sublist (List.take_sublist 3 _)
  · intro m hm
    have hm2 : m ∈ searchNine sq corpus loader emb :=
      (List.take_sublist 3 _).mem hm
    rw [hout] at hm2
    obtain ⟨i, hi, rfl⟩ := List.mem_map.mp hm2
    rw [matchAt_score]
    exact selectedIndices_threshold _ _ i hi
  · intro m hm
    rw [hout] at hm
    obtain ⟨i, hi, rfl⟩ := List.mem_map.mp hm
    refine ⟨i, ?_, rfl⟩
    have := selectedIndices_lt _ _ i hi
    rwa [simsOf, List.length_map] at this

/-- C7 counterexample: ten active candidates pass filtering with similarity
1 > 0.5, but the pipeline searches with `limit = min(50, 3·3) = 9`, so the
returned `total_courses_searched` is 9, not the 10 candidates that passed
filtering before truncation to 3 — the claim's count clause is false as
stated. -/
theorem end_to_end_counterexample :
    ((getRecommendations c7Deps c7Req none).1.toOption.map
      (fun r => r.total_courses_searched)) = some 9 ∧
    (simsOf id [1] (activeRows c7Corpus)).countP
      (fun v => decide ((1 : Rat) / 2 < v)) = 10 ∧
    (9 : Nat) ≠ 10 :=
  ⟨by with_unfolding_all rfl, by with_unfolding_all rfl, by decide⟩

/-- Witness for C7 at a concrete one-candidate corpus. -/
theorem end_to_end_scenario_witness :
    ((∀ r ∈ c7wCorpus.rows, RowWF r) ∧ c7wCorpus.hasIsActive = true ∧
     searchNine id c7wCorpus (.ok c7wCorpus) [1] ≠ []) ∧
    (searchNine id c7wCorpus (.ok c7wCorpus) [1]).length =
      min 9 ((simsOf id [1] (activeRows c7wCorpus)).countP
        (fun v => decide ((1 : Rat) / 2 < v))) :=
  ⟨⟨by decide, rfl, by with_unfolding_all decide⟩,
   (end_to_end_scenario id c7wCorpus (.ok c7wCorpus)
     (fun _ => .ok "desc") (fun _ => .ok [1]) (fun _ _ => .ok "t")
     (fun _ _ => .ok "e") "q" "desc" "t" [1] none (by decide) rfl rfl rfl
     (fun l => rfl) (by with_unfolding_all decide)).2.2.1⟩

/-- C3 (amended): on a well-formed loaded corpus and for `limit ≥ 1`,
`search_similar_courses` returns the matches at the selected indices in loop
order; the similarity scores are non-increasing; every returned match has
similarity strictly greater than 1/2; at most `limit` matches are returned;
the selected indices are ordered by strictly descending similarity with ties
in strictly descending (reverse first-loaded) corpus order — `argsort`
ascending followed by `[::-1]` reverses ties, so equal-score matches appear
in reverse corpus order, not original order; and the function is
deterministic (identical inputs give identical output). -/
theorem search_ordering (sq : Rat → Rat) (corpus : Corpus)
    (loader : Except String Corpus) (query : List Rat)
    (filters : Option CourseFilter) (limit : Nat)
    (hwf : ∀ r ∈ corpus.rows, RowWF r) (hlim : 1 ≤ limit) :
    (searchSimilarCourses sq (some corpus) loader query filters limit).1 =
      searchRanked sq corpus query filters limit ∧
    List.Pairwise (fun m1 m2 => m2.similarity_score ≤ m1.similarity_score)
      (searchSimilarCourses sq (some corpus) loader query filters limit).1 ∧
    (∀ m ∈ (searchSimilarCourses sq (some corpus) loader query filters
      limit).1, (1 : Rat) / 2 < m.similarity_score) ∧
    (searchSimilarCourses sq (some corpus) loader query filters
      limit).1.length ≤ limit ∧
    List.Pairwise
      (fun i j => ascRank (simsOf sq query (applyFilters corpus filters)) j i)
      (selectedIndices (simsOf sq query (applyFilters corpus filters))
        limit) ∧
    searchSimilarCourses sq (some corpus) loader query filters limit =
      searchSimilarCourses sq (some corpus) loader query filters limit := by
  have hout : (searchSimilarCourses sq (some corpus) loader query filters
      limit).1 = searchRanked sq corpus query filters limit := by
    unfold searchSimilarCourses
    dsimp only
    rw [searchBody_eq_ranked sq corpus query filters limit hwf]
  refine ⟨hout, ?_, ?_, ?_, selectedIndices_pairwise _ _, rfl⟩
  · rw [hout]
    unfold searchRanked
    rw [List.pairwise_map]
    refine (selectedIndices_pairwise _ _).imp ?_
    intro i j hij
    rw [matchAt_score, matchAt_score]
    rcases hij with h | ⟨h, _⟩
    · exact le_of_lt h
    · exact le_of_eq h
  · intro m hm
    rw [hout] at hm
    unfold searchRanked at hm
    obtain ⟨i, hi, rfl⟩ := List.mem_map.mp hm
    rw [matchAt_score]
    exact selectedIndices_threshold _ _ i hi
  · rw [hout]
    unfold searchRanked
    rw [List.length_map]
    calc (selectedIndices _ limit).length
        ≤ (topIndices _ limit).length := List.length_filter_le _ _
      _ ≤ limit := by
          unfold topIndices
          rw [List.length_reverse]
          exact sliceLast_length_le limit _ (by omega)

/-- C1 (code bug): `update_user_quota` stores an override of 5 for user `u1`,
five requests are recorded that day, yet the 6th `check_quota` is allowed
with the role-based limit 50: `_get_quota_for_user` builds the override cache
key but never reads it (`# For now, assume no override`), so the installed
override — still present in the cache, as the first conjunct shows — has no
effect on the decision, contradicting the spec and the evident intent of
`update_user_quota`. -/
theorem quota_override_ignored :
    (MemoryCache.get 0 (overrideKey "u1")
        (Nat.iterate (fun s => (quotaRecordRequest c1User 0 s).2) 5
          ((updateUserQuota "u1" 5 0 (emptyCache Int 3600)).2))).1 = some 5 ∧
    (checkQuota defaultQuotaSettings c1User 0
        (Nat.iterate (fun s => (quotaRecordRequest c1User 0 s).2) 5
          ((updateUserQuota "u1" 5 0 (emptyCache Int 3600)).2))).1 =
      ⟨true, 5, 50, 1⟩ := by
  with_unfolding_all decide

/-- C5 (code bug): on any cache miss, `generate_embedding` computes the
embedding and then raises `NameError` at the cache-store statement, because
`vector_service.py` never imports `timedelta`; the vector is not stored and
not returned.  Here the provider succeeds (one call is made, third
component), yet the call fails. -/
theorem embedding_cache_name_error :
    (generateEmbedding (fun _ => .ok [(1 : Rat)]) (fun t => t) 0
        (emptyCache (List Rat) 3600) "hello").1 =
      .error "NameError: name timedelta is not defined" ∧
    (generateEmbedding (fun _ => .ok [(1 : Rat)]) (fun t => t) 0
        (emptyCache (List Rat) 3600) "hello").2.2 = 1 := by
  constructor <;> rfl

/-- C3 counterexample: two courses with identical embeddings (both
similarity 1 against the query) and `limit = 1`.  The claim's tie rule
(original corpus order) requires course "A" (first loaded) to be returned;
the code — `np.argsort(...)[-limit:][::-1]` — returns course "B", because
the ascending stable sort puts A before B and the final reversal flips the
tie. -/
theorem search_tie_order_counterexample :
    ((searchSimilarCourses id (some c3Corpus) (.ok c3Corpus) [1] none
      1).1.map (fun m => m.course.id)) = ["B"] ∧
    ¬ ((searchSimilarCourses id (some c3Corpus) (.ok c3Corpus) [1] none
      1).1.map (fun m => m.course.id)) = ["A"] := by
  with_unfolding_all decide

/-- Witness for C3 at the concrete two-row corpus. -/
theorem search_ordering_witness :
    ((∀ r ∈ c3Corpus.rows, RowWF r) ∧ 1 ≤ 2) ∧
    (searchSimilarCourses id (some c3Corpus) (.ok c3Corpus) [1] none
      2).1.length ≤ 2 :=
  ⟨⟨by decide, by decide⟩,
   (search_ordering id c3Corpus (.ok c3Corpus) [1] none 2 (by decide)
     (by decide)).2.2.2.1⟩

/-- C10: `search_similar_courses` is a total function that never propagates a
failure: a corpus-load failure loads an empty DataFrame and the search
returns `[]`; any exception in the body (e.g. a `KeyError` on a malformed
row) is caught and `[]` is returned; and the load-failure outcome is
indistinguishable from searching a genuinely empty corpus. -/
theorem search_absorbs_failures (sq : Rat → Rat) (loaded : Option Corpus)
    (loader : Except String Corpus) (query : List Rat)
    (filters : Option CourseFilter) (limit : Nat) :
    (∀ msg, loader = .error msg →
      searchSimilarCourses sq none loader query filters limit =
        ([], ⟨[], false⟩)) ∧
    (∀ corpus e, loaded = some corpus →
      searchBody sq corpus query filters limit = .error e →
      (searchSimilarCourses sq loaded loader query filters limit).1 = []) ∧
    (∀ msg (loader2 : Except String Corpus),
      searchSimilarCourses sq none (.error msg) query filters limit =
        searchSimilarCourses sq (some ⟨[], false⟩) loader2 query filters
          limit) := by
  refine ⟨?_, ?_, ?_⟩
  · intro msg h
    subst h
    rfl
  · intro corpus e hl hb
    subst hl
    unfold searchSimilarCourses
    dsimp only
    rw [hb]
  · intro msg loader2
    rfl

/-- Witness for C10: a failing loader yields `[]`, and a malformed corpus
row that passes the threshold also yields `[]`. -/
theorem search_absorbs_failures_witness :
    ((Except.error "io" : Except String Corpus) = .error "io" ∧
     searchBody id c10Corpus [1] none 5 = .error "KeyError") ∧
    (searchSimilarCourses id none (.error "io") [1] none 5 =
      ([], ⟨[], false⟩) ∧
     (searchSimilarCourses id (some c10Corpus) (.ok c10Corpus) [1] none
       5).1 = []) :=
  ⟨⟨rfl, by with_unfolding_all rfl⟩,
   (search_absorbs_failures id (some c10Corpus) (.error "io") [1] none
     5).1 "io" rfl,
   (search_absorbs_failures id (some c10Corpus) (.ok c10Corpus) [1] none
     5).2.1 c10Corpus "KeyError" rfl (by with_unfolding_all rfl)⟩

/-- Witness for C9 at concrete inputs. -/
theorem cache_roundtrip_witness :
    0 < 5 ∧
    ((MemoryCache.get 0 "a"
        (MemoryCache.set 0 "a" (3 : Int) (some 5) (emptyCache Int 3600))).1 =
      some 3 ∧
    (∀ t, 0 + 5 < t →
      (MemoryCache.get t "a"
        (MemoryCache.set 0 "a" (3 : Int) (some 5) (emptyCache Int 3600))).1 =
        none) ∧
    (∀ (s2 : CacheState Int) t k2 v2 e, (MemoryCache.get t k2 s2).1 = some v2 →
      s2.expiry k2 = some e → t ≤ e) ∧
    (∀ (s2 : CacheState Int) t k2 e, (MemoryCache.existsKey t k2 s2).1 = true →
      s2.expiry k2 = some e → t ≤ e) ∧
    (∀ (s2 : CacheState Int) t ks k2 v2 e,
      (k2, v2) ∈ (MemoryCache.getMany t ks s2).1 →
      s2.expiry k2 = some e → t ≤ e) ∧
    (∀ (s3 : CacheState Int) t k2 a e, s3.expiry k2 = some e → e < t →
      (MemoryCache.increment t k2 a s3).1 = a)) :=
  ⟨by decide, cache_roundtrip (emptyCache Int 3600) 0 "a" 3 5 (by decide)⟩

end ExploreBlue
